import Mathlib

/-!
Verification of the metadata fusion and classification logic of `infx.go`.

The program consumes two loosely-typed JSON documents (an exiftool tag
document and a mediainfo track document, both decoded into Go
`map[string]interface{}` values), a sniffed MIME type, a file size, and the
file bytes, and derives classification facts (duration string, animation
flag, encryption flag, audio-only-video flag, MIME type), a human-readable
size string and a set of cryptographic digests.

Shallow embedding conventions:
- Go `interface{}` values decoded from JSON are modelled by the inductive
  `Json`; JSON numbers decode to Go `float64`, modelled here as `ℚ`
  (every JSON numeric literal that fits a float64 is a rational, and the
  comparisons the program performs are order comparisons, which agree).
- Go `map[string]interface{}` is modelled as an association list
  `Obj = List (String × Json)`; lookup takes the first binding, and a
  missing key behaves as `none`, exactly as a missing Go map key yields the
  nil interface value.
- Go's `float64` arithmetic in `humanReadableSize` is modelled exactly by
  the integer mantissa-and-exponent structure `B64`: conversion and
  division round to the nearest binary64 value (round-to-nearest,
  ties-to-even, 53-bit significand); the inputs of this program never
  reach the subnormal or overflow ranges, which are not modelled.
-/

/-- Model of a JSON-decoded Go `interface{}` value: `null` is the nil
interface, numbers are Go `float64` values (modelled as `ℚ`), objects are
Go maps modelled as association lists. -/
inductive Json where
  | null : Json
  | bool : Bool → Json
  | num : ℚ → Json
  | str : String → Json
  | arr : List Json → Json
  | obj : List (String × Json) → Json

/-- Model of Go `map[string]interface{}`: an association list; lookup takes
the first binding for a key. -/
abbrev Obj := List (String × Json)

/-- Key lookup in a modelled Go map, `none` when the key is absent. -/
def lookupJ (o : Obj) (k : String) : Option Json :=
  List.lookup k o

/-- Removes every binding of a key; used to state that a mistyped field
behaves like an absent one. -/
def eraseK (k : String) : Obj → Obj
  | [] => []
  | p :: o => if p.1 == k then eraseK k o else p :: eraseK k o

/-- Model of Go `strings.HasPrefix` on character lists. -/
def charsHavePre : List Char → List Char → Bool
  | [], _ => true
  | _ :: _, [] => false
  | a :: as, b :: bs => a == b && charsHavePre as bs

/-- Model of Go `strings.Contains`: does `needle` occur as a contiguous
substring of the character list? -/
def charsContain (needle : List Char) : List Char → Bool
  | [] => needle.isEmpty
  | c :: cs => charsHavePre needle (c :: cs) || charsContain needle cs

/-- Model of Go `strings.Contains hay needle`. -/
def strContains (hay needle : String) : Bool :=
  charsContain needle.data hay.data

/-- Model of Go `strings.HasPrefix s pre`. -/
def strHasPre (s pre : String) : Bool :=
  charsHavePre pre.data s.data

/-- ASCII lower-casing of one character. -/
def charToLower (c : Char) : Char :=
  if 'A' ≤ c ∧ c ≤ 'Z' then Char.ofNat (c.toNat + 32) else c

/-- Model of Go `strings.EqualFold` restricted to the ASCII folding the
program exercises (the compared literal is the ASCII word "Encrypted",
and ASCII is the only case folding the Unicode fold and the ASCII fold
treat differently on no input the comparison can succeed on). -/
def eqFold (a b : String) : Bool :=
  a.data.map charToLower == b.data.map charToLower

/-- Model of Go `strconv.Atoi`: optional sign, at least one digit, all
digits, 64-bit range; `none` models a non-nil error. -/
def atoi (s : String) : Option ℤ :=
  let parse : ℤ → List Char → Option ℤ := fun sign digits =>
    if digits.isEmpty then none
    else if digits.all Char.isDigit then
      let n : ℕ := digits.foldl (fun acc c => acc * 10 + (c.toNat - 48)) 0
      let v : ℤ := sign * n
      if -(2 ^ 63) ≤ v ∧ v ≤ 2 ^ 63 - 1 then some v else none
    else none
  match s.data with
  | '+' :: rest => parse 1 rest
  | '-' :: rest => parse (-1) rest
  | chars => parse 1 chars

/-- Model of Go `fmt.Sprintf "%v"` on a JSON-decoded numeric (`float64`)
value: an integral value prints as a plain integer, which is the only case
the program's inputs produce that any classification rule can observe; the
rendering of a non-integral float is abbreviated to the exact rational. -/
def goFmtNum (q : ℚ) : String :=
  if q.den = 1 then toString q.num else toString q

/-- Model of Go `fmt.Sprintf "%v"` on a JSON-decoded `interface{}` value.
Scalar cases follow Go exactly (`nil` prints "<nil>", booleans print
"true"/"false", strings print verbatim); the element-wise rendering of the
composite cases is abbreviated, since no classification rule nor any claim
observes it. -/
def goFmtV : Json → String
  | Json.null => "<nil>"
  | Json.bool b => if b then "true" else "false"
  | Json.num q => goFmtNum q
  | Json.str s => s
  | Json.arr _ => "[...]"
  | Json.obj _ => "map[...]"

/-! ## extractDuration (infx.go lines 74-94) -/

/-- Loop body of `extractDuration`: scan the track list, return the
`Duration` value of the first track whose `@type` is the string "Video"
and which carries a `Duration` key (a Video track without a `Duration` key
is skipped and the scan continues, as the Go loop does). -/
def durFromTracks : List Json → Option Json
  | [] => none
  | t :: ts =>
    match t with
    | Json.obj tm =>
      match lookupJ tm "@type" with
      | some (Json.str ty) =>
        if ty == "Video" then
          match lookupJ tm "Duration" with
          | some d => some d
          | none => durFromTracks ts
        else durFromTracks ts
      | _ => durFromTracks ts
    | _ => durFromTracks ts

/-- Model of `extractDuration`: the tag document's `Duration` value (of any
type) rendered with `%v`; otherwise the first Video track's `Duration`;
otherwise the sentinel "Unknown". -/
def extractDuration (exif media : Obj) : String :=
  match lookupJ exif "Duration" with
  | some v => goFmtV v
  | none =>
    match lookupJ media "media" with
    | some (Json.obj mediaMap) =>
      match lookupJ mediaMap "track" with
      | some (Json.arr tracks) =>
        match durFromTracks tracks with
        | some d => goFmtV d
        | none => "Unknown"
      | _ => "Unknown"
    | _ => "Unknown"

/-! ## Track-list helpers shared by the classifiers -/

/-- Scan over the mediainfo track list in the shape every classifier uses:
extract `media.track` as a list and test whether any element that is an
object satisfies the given per-track check; a missing or mistyped root or
track list yields `false`. -/
def anyTrack (media : Obj) (p : Obj → Bool) : Bool :=
  match lookupJ media "media" with
  | some (Json.obj mediaRoot) =>
    match lookupJ mediaRoot "track" with
    | some (Json.arr tracks) =>
      tracks.any fun t =>
        match t with
        | Json.obj tm => p tm
        | _ => false
    | _ => false
  | _ => false

/-- Specification-side view of the track list: the object tracks of
`media.track`, or `[]` when the root or the list is absent or mistyped. -/
def tracksOf (media : Obj) : List Obj :=
  match lookupJ media "media" with
  | some (Json.obj mediaRoot) =>
    match lookupJ mediaRoot "track" with
    | some (Json.arr tracks) =>
      tracks.filterMap fun t =>
        match t with
        | Json.obj tm => some tm
        | _ => none
    | _ => []
  | _ => []

/-! ## isAnimation (infx.go lines 96-143) -/

/-- Animation rule 1: the tag document's `FrameCount` is a number greater
than 1. -/
def exifFrameCountAnim (exif : Obj) : Bool :=
  match lookupJ exif "FrameCount" with
  | some (Json.num c) => decide (1 < c)
  | _ => false

/-- Animation rule 2: the tag document's `Animation` is the string "Yes" or
"True". -/
def exifAnimationFlag (exif : Obj) : Bool :=
  match lookupJ exif "Animation" with
  | some (Json.str v) => v == "Yes" || v == "True"
  | _ => false

/-- Animation rule 3: the tag document's `Duration` is a number greater
than 0 (the Go code applies no MIME condition here). -/
def exifDurationAnim (exif : Obj) : Bool :=
  match lookupJ exif "Duration" with
  | some (Json.num d) => decide (0 < d)
  | _ => false

/-- Go's `format, _ := track["Format"].(string)` binding of animation rule
4 (infx.go line 129): a track's Format string, with the string zero value
for an absent or non-string field. -/
def trackFormat (tm : Obj) : String :=
  match lookupJ tm "Format" with
  | some (Json.str f) => f
  | _ => ""

/-- Animation rule 4: some track whose `Format` contains "GIF" (only under
MIME image/gif) or "WebP" (only under MIME image/webp) has a string
`FrameCount` other than "1" or a string `Duration` other than "0". -/
def trackAnim (mimeType : String) (media : Obj) : Bool :=
  let isGIF := mimeType == "image/gif"
  let isWebP := mimeType == "image/webp"
  anyTrack media fun tm =>
    let format := trackFormat tm
    if (isGIF && strContains format "GIF") || (isWebP && strContains format "WebP") then
      (match lookupJ tm "FrameCount" with
       | some (Json.str fc) => fc != "1"
       | _ => false) ||
      (match lookupJ tm "Duration" with
       | some (Json.str d) => d != "0"
       | _ => false)
    else false

/-- Model of `isAnimation`: the Go function returns on the first rule that
fires, which for a pure function is the disjunction of the four rules in
order. -/
def isAnimation (mimeType : String) (exif media : Obj) : Bool :=
  exifFrameCountAnim exif || exifAnimationFlag exif ||
    exifDurationAnim exif || trackAnim mimeType media

/-! ## isEncrypted (infx.go lines 145-166) -/

/-- Per-track encryption check: the track carries an `Encryption` field
whose string value case-insensitively equals "Encrypted". -/
def encCheck (tm : Obj) : Bool :=
  match lookupJ tm "Encryption" with
  | some (Json.str s) => eqFold s "Encrypted"
  | _ => false

/-- Model of `isEncrypted`. -/
def isEncrypted (media : Obj) : Bool :=
  anyTrack media encCheck

/-! ## isVideoWithAudioOnly (infx.go lines 168-209) -/

/-- Per-track check for a `General` track's `VideoCount`: a string field
parsed by `strconv.Atoi` without error to a value greater than 0. -/
def videoCountCheck (tm : Obj) : Bool :=
  match lookupJ tm "VideoCount" with
  | some (Json.str vc) =>
    match atoi vc with
    | some n => decide (0 < n)
    | none => false
  | _ => false

/-- Go's `tType, ok := trackMap["@type"].(string); ok && tType == ty`. -/
def typeIs (ty : String) (tm : Obj) : Bool :=
  match lookupJ tm "@type" with
  | some (Json.str t) => t == ty
  | _ => false

/-- Signal (a): some track's `@type` is the string "Video". -/
def hasVideoTrackB (media : Obj) : Bool :=
  anyTrack media (typeIs "Video")

/-- Signal (b): some track's `@type` is the string "General" and its
`VideoCount` parses to an integer greater than 0. -/
def hasGeneralVideoCountB (media : Obj) : Bool :=
  anyTrack media fun tm => typeIs "General" tm && videoCountCheck tm

/-- Signal (c): the tag document contains a `VideoFrameRate` or a
`FrameRate` key (of any value type, as the Go code only tests presence). -/
def hasVideoExifKeyB (exif : Obj) : Bool :=
  (lookupJ exif "VideoFrameRate").isSome || (lookupJ exif "FrameRate").isSome

/-- Model of `isVideoWithAudioOnly`: false unless the MIME type starts with
"video/"; then true exactly when all three video-presence signals are
absent. -/
def isVideoWithAudioOnly (mimeType : String) (exif media : Obj) : Bool :=
  if strHasPre mimeType "video/" then
    !hasVideoTrackB media && !hasGeneralVideoCountB media && !hasVideoExifKeyB exif
  else false

/-! ## getMimeType (infx.go lines 225-237) -/

/-- Fallback step of `getMimeType`: the sniffer's answer, where `none`
models a non-nil error from `magicmime.TypeByFile`; an error or an empty
answer yields the literal "unknown". -/
def sniffFallback : Option String → String
  | none => "unknown"
  | some m => if m == "" then "unknown" else m

/-- Model of `getMimeType`: prefer the tag document's `MIMEType` when it is
a non-empty string other than "application/unknown"; otherwise fall back to
the sniffer. The sniffer (a black-box native library call) is passed in as
its result. -/
def getMimeType (exif : Obj) (sniffed : Option String) : String :=
  match lookupJ exif "MIMEType" with
  | some (Json.str s) =>
    if s != "" && s != "application/unknown" then s
    else sniffFallback sniffed
  | _ => sniffFallback sniffed

/-! ## Exact model of the binary64 arithmetic in humanReadableSize

Go computes `float64(bytes) / float64(div)` and formats it with "%.1f".
A binary64 value is an exact dyadic rational m * 2 ^ x, modelled by the
structure `B64` over integers; rounding an exact quotient of integers to
the nearest representable value (round-to-nearest, ties-to-even, 53-bit
significand) is integer arithmetic. The program's magnitudes never reach
the subnormal or overflow ranges, which are therefore not modelled. -/

/-- Rounds the exact quotient a / b (with b > 0) to the nearest integer
with ties to even, the IEEE-754 rounding of one division step. -/
def divRound (a b : ℤ) : ℤ :=
  let q := Int.ediv a b
  let r := a - q * b
  if 2 * r < b then q
  else if b < 2 * r then q + 1
  else if Int.emod q 2 = 0 then q else q + 1

/-- Exact value of an IEEE-754 binary64 number: mantissa times 2 ^ x.
A normalized nonzero value keeps m in [2 ^ 52, 2 ^ 53). -/
structure B64 where
  m : ℤ
  x : ℤ

/-- Carries a mantissa that rounded up to 2 ^ 53 into the next binade. -/
def normB64 (m x : ℤ) : B64 :=
  if m = 2 ^ 53 then ⟨2 ^ 52, x + 1⟩ else ⟨m, x⟩

/-- Number of binary digits of n, by fuel-guarded halving; fuel 1100 covers
every magnitude far beyond the binary64 range. -/
def bitLenF : ℕ → ℕ → ℕ
  | 0, _ => 0
  | f + 1, n => if n = 0 then 0 else bitLenF f (n / 2) + 1

/-- Model of Go's `float64 n` conversion of a non-negative integer: exact
below 2 ^ 53, rounded to 53 significant bits (ties to even) above. -/
def floatOfInt (n : ℤ) : B64 :=
  if n ≤ 0 then ⟨0, 0⟩
  else
    let e := bitLenF 1100 n.toNat - 1
    if e ≤ 52 then ⟨n * 2 ^ (52 - e), (e : ℤ) - 52⟩
    else normB64 (divRound n (2 ^ (e - 52))) ((e : ℤ) - 52)

/-- Model of Go's binary64 division on normalized positive values: the
exact quotient correctly rounded to 53 significant bits, ties to even. -/
def floatDiv (a b : B64) : B64 :=
  if a.m ≤ 0 ∨ b.m ≤ 0 then ⟨0, 0⟩
  else
    let s := a.x - b.x
    let bigger := b.m ≤ a.m
    let exp := if bigger then s else s - 1
    let shift : ℕ := if bigger then 52 else 53
    normB64 (divRound (a.m * 2 ^ shift) b.m) (exp - 52)

/-- Model of Go `fmt.Sprintf "%.1f"` on a binary64 value: the exact value
rounded to one decimal. A binary64 value is dyadic and hence never an
exact decimal tie, so the even-tie branch of `divRound` is immaterial
here. -/
def formatF1 (v : B64) : String :=
  let t : ℤ :=
    if 0 ≤ v.x then v.m * 10 * 2 ^ v.x.toNat
    else divRound (v.m * 10) (2 ^ (-v.x).toNat)
  toString (Int.ediv t 10) ++ "." ++ toString (Int.emod t 10)

/-! ## humanReadableSize (infx.go lines 211-223) -/

/-- Unit list of `humanReadableSize`; indexing past "TB" panics in Go,
modelled below by `Option`. -/
def unitsList : List String := ["KB", "MB", "GB", "TB"]

/-- Model of the unit-search loop of `humanReadableSize`: starting from
n = bytes / 1000, div = 1000, exp = 0, divide by 1000 until the quotient
drops below 1000. -/
def sizeLoop (n divi exp : ℕ) : ℕ × ℕ :=
  if h : 1000 ≤ n then sizeLoop (n / 1000) (divi * 1000) (exp + 1)
  else (divi, exp)
termination_by n
decreasing_by exact Nat.div_lt_self (by omega) (by omega)

/-- Model of `humanReadableSize`. Go indexes `units[exp]` unconditionally
and panics when `exp` exceeds 3; the panic is modelled as `none`. -/
def humanReadableSize (bytes : ℤ) : Option String :=
  if bytes < 1000 then some (toString bytes ++ " B")
  else
    let p := sizeLoop (bytes.toNat / 1000) 1000 0
    match unitsList.get? p.2 with
    | some u =>
      some (formatF1 (floatDiv (floatOfInt bytes) (floatOfInt p.1)) ++ " " ++ u)
    | none => none

/-! ## computeHashes (infx.go lines 239-281) -/

/-- Algorithm names of the digest set, in the order the Go code assembles
them (six in the map literal, then the two BLAKE2b accumulators); the Go
map is unordered, so only the underlying key set is meaningful. -/
def hashNames : List String :=
  ["md5", "sha1", "sha256", "sha512", "sha3-256", "sha3-512",
   "blake2b-256", "blake2b-512"]

/-- Lowercase hexadecimal alphabet used by Go `hex.EncodeToString`. -/
def hexChars : List Char :=
  "0123456789abcdef".data

/-- Two lowercase hex characters of one byte, as `hex.EncodeToString`
emits them. -/
def hexOfByte (b : ℕ) : List Char :=
  [hexChars.getD (b / 16 % 16) '0', hexChars.getD (b % 16) '0']

/-- Model of Go `hex.EncodeToString` over a byte list. -/
def hexEncode (bs : List ℕ) : String :=
  String.mk (bs.map hexOfByte).flatten

/-- Every character of the string is a lowercase hex digit. -/
def isLowerHex (s : String) : Bool :=
  s.data.all fun c => hexChars.contains c

/-- Model of `blake2b.New256 nil` and `blake2b.New512 nil` construction:
the library returns an error exactly when the optional key exceeds 64
bytes; the program passes no key. -/
def blake2bNew (keyLen : ℕ) : Except String Unit :=
  if 64 < keyLen then Except.error "blake2b: invalid key size"
  else Except.ok Unit.unit

/-- Model of `computeHashes`. The cryptographic cores are external library
code (crypto/md5, crypto/sha*, x/crypto), abstracted as the function
`hashFn` from algorithm name and file bytes to digest bytes; `file` is the
outcome of opening and fully reading the file (`Except.error` covers both
the open error and a mid-stream read error, each of which makes the Go
function return a nil map and the error). -/
def computeHashes (hashFn : String → List ℕ → List ℕ)
    (file : Except String (List ℕ)) : Except String (List (String × String)) :=
  match blake2bNew 0 with
  | Except.error e => Except.error e
  | Except.ok _ =>
    match blake2bNew 0 with
    | Except.error e => Except.error e
    | Except.ok _ =>
      match file with
      | Except.error e => Except.error e
      | Except.ok content =>
        Except.ok (hashNames.map fun n => (n, hexEncode (hashFn n content)))

/-! ## Specification-side definitions -/

/-- Duration resolution exactly as the specification sentence words it:
the tag document's `Duration` if the key is present; otherwise the
`Duration` field of THE FIRST track whose `@type` equals "Video" (with no
value when that first Video track lacks the key); otherwise "Unknown". -/
def extractDurationSpec (exif media : Obj) : String :=
  match lookupJ exif "Duration" with
  | some v => goFmtV v
  | none =>
    match (tracksOf media).filter
        (fun tm => match lookupJ tm "@type" with
                   | some (Json.str ty) => ty == "Video"
                   | _ => false) |>.head? with
    | some tm =>
      match lookupJ tm "Duration" with
      | some d => goFmtV d
      | none => "Unknown"
    | none => "Unknown"

/-- Duration value a track contributes: its `Duration` when its `@type`
is "Video" and the key is present. -/
def vidDur (tm : Obj) : Option Json :=
  match lookupJ tm "@type" with
  | some (Json.str ty) =>
    if ty == "Video" then lookupJ tm "Duration" else none
  | _ => none

/-- Duration resolution as amended: the fallback value is the `Duration`
of the first track that both has `@type` "Video" and carries a `Duration`
key. -/
def extractDurationAmended (exif media : Obj) : String :=
  match lookupJ exif "Duration" with
  | some v => goFmtV v
  | none =>
    match (tracksOf media).findSome? vidDur with
    | some d => goFmtV d
    | none => "Unknown"

/-- Video-presence signal (a) of the specification: some track is
explicitly marked as a Video track. -/
def sigA (media : Obj) : Prop :=
  ∃ tm ∈ tracksOf media, lookupJ tm "@type" = some (Json.str "Video")

/-- Video-presence signal (b) of the specification: some General track has
a VideoCount parseable as an integer greater than 0. -/
def sigB (media : Obj) : Prop :=
  ∃ tm ∈ tracksOf media, lookupJ tm "@type" = some (Json.str "General") ∧
    ∃ vc n, lookupJ tm "VideoCount" = some (Json.str vc) ∧
      atoi vc = some n ∧ 0 < n

/-- Video-presence signal (c) of the specification: the tag document
contains a VideoFrameRate or FrameRate key. -/
def sigC (exif : Obj) : Prop :=
  (lookupJ exif "VideoFrameRate").isSome = true ∨
    (lookupJ exif "FrameRate").isSome = true

/-! ## Bridge lemmas -/

theorem lookupJ_eraseK_self (o : Obj) (k : String) :
    lookupJ (eraseK k o) k = none := by
  induction o with
  | nil => rfl
  | cons p o ih =>
    obtain ⟨a, b⟩ := p
    by_cases h : a = k
    · simpa [eraseK, h] using ih
    · have hba : (k == a) = false := beq_eq_false_iff_ne.mpr (Ne.symm h)
      simpa [eraseK, lookupJ, List.lookup, h, hba] using ih

theorem lookupJ_eraseK_ne (o : Obj) (k k' : String) (h : k' ≠ k) :
    lookupJ (eraseK k o) k' = lookupJ o k' := by
  induction o with
  | nil => rfl
  | cons p o ih =>
    obtain ⟨a, b⟩ := p
    by_cases hp : a = k
    · subst hp
      have hba : (k' == a) = false := beq_eq_false_iff_ne.mpr h
      simpa [eraseK, lookupJ, List.lookup, hba] using ih
    · by_cases hq : k' = a
      · simp [eraseK, lookupJ, List.lookup, hp, hq]
      · have hba : (k' == a) = false := beq_eq_false_iff_ne.mpr hq
        simpa [eraseK, lookupJ, List.lookup, hp, hba] using ih

theorem any_objFilter (ts : List Json) (p : Obj → Bool) :
    (ts.any fun t => match t with | Json.obj tm => p tm | _ => false) =
      (ts.filterMap fun t =>
        match t with | Json.obj tm => some tm | _ => none).any p := by
  induction ts with
  | nil => rfl
  | cons t ts ih => cases t <;> simp [ih]

theorem anyTrack_eq_tracksOf (media : Obj) (p : Obj → Bool) :
    anyTrack media p = (tracksOf media).any p := by
  unfold anyTrack tracksOf
  cases hr : lookupJ media "media" with
  | none => rfl
  | some v =>
    cases v with
    | obj mediaRoot =>
      cases ht : lookupJ mediaRoot "track" with
      | none => simp [ht]
      | some w =>
        cases w with
        | arr tracks =>
          simp only [ht]
          exact any_objFilter tracks p
        | null => simp [ht]
        | bool b => simp [ht]
        | num q => simp [ht]
        | str s => simp [ht]
        | obj o => simp [ht]
    | null => rfl
    | bool b => rfl
    | num q => rfl
    | str s => rfl
    | arr t => rfl

theorem tracksOf_no_root (media : Obj)
    (h : ∀ o, lookupJ media "media" ≠ some (Json.obj o)) :
    tracksOf media = [] := by
  unfold tracksOf
  cases hr : lookupJ media "media" with
  | none => rfl
  | some v =>
    cases v with
    | obj o => exact absurd hr (h o)
    | null => rfl
    | bool b => rfl
    | num q => rfl
    | str s => rfl
    | arr t => rfl

theorem tracksOf_bad_track (media : Obj) (root : List (String × Json))
    (hr : lookupJ media "media" = some (Json.obj root))
    (h : ∀ xs, lookupJ root "track" ≠ some (Json.arr xs)) :
    tracksOf media = [] := by
  unfold tracksOf
  rw [hr]
  cases ht : lookupJ root "track" with
  | none => simp [ht]
  | some v =>
    cases v with
    | arr xs => exact absurd ht (h xs)
    | null => simp [ht]
    | bool b => simp [ht]
    | num q => simp [ht]
    | str s => simp [ht]
    | obj o => simp [ht]

theorem anyTrack_of_tracksOf_nil (media : Obj) (p : Obj → Bool)
    (h : tracksOf media = []) : anyTrack media p = false := by
  rw [anyTrack_eq_tracksOf, h]
  rfl

theorem encCheck_iff (tm : Obj) : encCheck tm = true ↔
    ∃ s, lookupJ tm "Encryption" = some (Json.str s) ∧
      eqFold s "Encrypted" = true := by
  unfold encCheck
  cases h : lookupJ tm "Encryption" with
  | none => simp
  | some v => cases v <;> simp [h]

theorem typeIs_iff (ty : String) (tm : Obj) : typeIs ty tm = true ↔
    lookupJ tm "@type" = some (Json.str ty) := by
  unfold typeIs
  cases h : lookupJ tm "@type" with
  | none => simp
  | some v => cases v <;> simp [h]

theorem videoCountCheck_iff (tm : Obj) : videoCountCheck tm = true ↔
    ∃ vc n, lookupJ tm "VideoCount" = some (Json.str vc) ∧
      atoi vc = some n ∧ 0 < n := by
  unfold videoCountCheck
  cases h : lookupJ tm "VideoCount" with
  | none => simp
  | some v =>
    cases v with
    | str vc =>
      cases ha : atoi vc with
      | none => simp [h, ha]
      | some n => simp [h, ha]
    | null => simp
    | bool b => simp
    | num q => simp
    | arr t => simp
    | obj o => simp

theorem sniffFallback_eq (sniffed : Option String) :
    sniffFallback sniffed =
      match sniffed with
      | none => "unknown"
      | some m => if m = "" then "unknown" else m := by
  cases sniffed with
  | none => rfl
  | some m =>
    by_cases h : m = ""
    · simp [sniffFallback, h]
    · simp [sniffFallback, h]

/-! ## Claim theorems -/

/-- C5: isEncrypted returns true exactly when some track of the track list
carries an Encryption field whose string value case-insensitively equals
"Encrypted"; an absent or malformed track list yields false (`tracksOf`
is empty then), and the lowercase value "encrypted" matches. -/
theorem spec_C5 :
    (∀ media : Obj, isEncrypted media = true ↔
      ∃ tm ∈ tracksOf media, ∃ s,
        lookupJ tm "Encryption" = some (Json.str s) ∧
          eqFold s "Encrypted" = true) ∧
    isEncrypted [("media", Json.obj [("track", Json.arr
      [Json.obj [("Encryption", Json.str "encrypted")]])])] = true ∧
    isEncrypted [("media", Json.obj [("track", Json.arr
      [Json.obj [("Format", Json.str "AVC")]])])] = false := by
  refine ⟨?_, rfl, rfl⟩
  intro media
  unfold isEncrypted
  rw [anyTrack_eq_tracksOf, List.any_eq_true]
  constructor
  · rintro ⟨tm, hmem, hc⟩
    exact ⟨tm, hmem, (encCheck_iff tm).mp hc⟩
  · rintro ⟨tm, hmem, s, h1, h2⟩
    exact ⟨tm, hmem, (encCheck_iff tm).mpr ⟨s, h1, h2⟩⟩

/-- C2: MIME resolution precedence. The tag document's MIMEType wins when
it is a non-empty string other than "application/unknown"; otherwise the
sniffer's result is used, and a failed or empty sniff yields "unknown";
with the two concrete examples of the specification. -/
theorem spec_C2 (exif : Obj) (sniffed : Option String) :
    (∀ s, lookupJ exif "MIMEType" = some (Json.str s) → s ≠ "" →
      s ≠ "application/unknown" → getMimeType exif sniffed = s) ∧
    ((¬ ∃ s, lookupJ exif "MIMEType" = some (Json.str s) ∧ s ≠ "" ∧
        s ≠ "application/unknown") →
      getMimeType exif sniffed =
        match sniffed with
        | none => "unknown"
        | some m => if m = "" then "unknown" else m) ∧
    getMimeType [("MIMEType", Json.str "image/png")] sniffed = "image/png" ∧
    getMimeType [("MIMEType", Json.str "application/unknown")]
      (some "image/gif") = "image/gif" := by
  refine ⟨?_, ?_, rfl, rfl⟩
  · intro s hs h1 h2
    unfold getMimeType
    rw [hs]
    have : (s != "" && s != "application/unknown") = true := by
      simp [h1, h2]
    simp [this]
  · intro hno
    rw [← sniffFallback_eq]
    unfold getMimeType
    cases hs : lookupJ exif "MIMEType" with
    | none => rfl
    | some v =>
      cases v with
      | str s =>
        have : ¬ (s ≠ "" ∧ s ≠ "application/unknown") := by
          intro hc
          exact hno ⟨s, hs, hc⟩
        have hb : (s != "" && s != "application/unknown") = false := by
          rcases not_and_or.mp this with h | h
          · simp [not_not.mp h]
          · simp [not_not.mp h]
        simp [hb]
      | null => rfl
      | bool b => rfl
      | num q => rfl
      | arr t => rfl
      | obj o => rfl

/-- C1 counterexample: with MIME type "image/png" (neither image/gif nor
image/webp), a tag document whose only field is a numeric Duration of 2,
and an empty track document, rules 1 and 2 do not match, yet isAnimation
returns true: the Go code applies the numeric-Duration rule without any
MIME condition, contradicting the claim that a positive numeric Duration
makes isAnimation true only for image/gif or image/webp. -/
theorem spec_C1_cex :
    isAnimation "image/png" [("Duration", Json.num 2)] [] = true ∧
    "image/png" ≠ "image/gif" ∧ "image/png" ≠ "image/webp" ∧
    exifFrameCountAnim [("Duration", Json.num 2)] = false ∧
    exifAnimationFlag [("Duration", Json.num 2)] = false := by
  refine ⟨by decide, by decide, by decide, rfl, rfl⟩

/-- C1 as amended: animation rule 3 is not MIME-gated. For every MIME type
and every pair of documents, a tag-document Duration field that is numeric
and greater than 0 makes isAnimation return true. -/
theorem spec_C1 (mimeType : String) (exif media : Obj) (d : ℚ)
    (h1 : lookupJ exif "Duration" = some (Json.num d)) (h2 : 0 < d) :
    isAnimation mimeType exif media = true := by
  unfold isAnimation
  have h3 : exifDurationAnim exif = true := by
    unfold exifDurationAnim
    rw [h1]
    simpa using h2
  simp [h3]

/-- C1 witness: the amended rule instantiated at MIME "image/png" and a
numeric Duration of 2. -/
theorem spec_C1_w :
    isAnimation "image/png" [("Duration", Json.num 2)] [] = true :=
  spec_C1 "image/png" [("Duration", Json.num 2)] [] 2 rfl (by norm_num)

theorem bool_false_iff_not {b : Bool} {P : Prop} (h : b = true ↔ P) :
    b = false ↔ ¬ P := by
  cases b <;> simp_all

theorem hasVideoTrackB_iff (media : Obj) :
    hasVideoTrackB media = true ↔ sigA media := by
  unfold hasVideoTrackB sigA
  rw [anyTrack_eq_tracksOf, List.any_eq_true]
  exact exists_congr fun tm => and_congr_right fun _ => typeIs_iff "Video" tm

theorem hasGeneralVideoCountB_iff (media : Obj) :
    hasGeneralVideoCountB media = true ↔ sigB media := by
  unfold hasGeneralVideoCountB sigB
  rw [anyTrack_eq_tracksOf, List.any_eq_true]
  refine exists_congr fun tm => and_congr_right fun _ => ?_
  rw [Bool.and_eq_true]
  exact and_congr (typeIs_iff "General" tm) (videoCountCheck_iff tm)

theorem hasVideoExifKeyB_iff (exif : Obj) :
    hasVideoExifKeyB exif = true ↔ sigC exif := by
  unfold hasVideoExifKeyB sigC
  rw [Bool.or_eq_true]

/-- C3: isVideoWithAudioOnly is false for every MIME type that does not
start with "video/"; for a MIME type starting with "video/", it is true
exactly when all three video-presence signals are absent: no track marked
"Video", no "General" track with a VideoCount parsing to an integer
greater than 0, and no VideoFrameRate or FrameRate key in the tag
document; with the three concrete examples of the specification. -/
theorem spec_C3 (mimeType : String) (exif media : Obj) :
    (strHasPre mimeType "video/" = false →
      isVideoWithAudioOnly mimeType exif media = false) ∧
    (strHasPre mimeType "video/" = true →
      (isVideoWithAudioOnly mimeType exif media = true ↔
        ¬ sigA media ∧ ¬ sigB media ∧ ¬ sigC exif)) ∧
    isVideoWithAudioOnly "video/mp4" [] [("media", Json.obj [("track",
      Json.arr [Json.obj [("@type", Json.str "General")]])])] = true ∧
    isVideoWithAudioOnly "video/mp4" [] [("media", Json.obj [("track",
      Json.arr [Json.obj [("@type", Json.str "General")],
                Json.obj [("@type", Json.str "Video")]])])] = false ∧
    (∀ exif2 media2 : Obj,
      isVideoWithAudioOnly "audio/mp3" exif2 media2 = false) := by
  refine ⟨?_, ?_, by decide, by decide, fun exif2 media2 => rfl⟩
  · intro h
    unfold isVideoWithAudioOnly
    simp [h]
  · intro h
    unfold isVideoWithAudioOnly
    simp only [h, if_true]
    rw [Bool.and_eq_true, Bool.and_eq_true,
      Bool.not_eq_true', Bool.not_eq_true', Bool.not_eq_true', and_assoc]
    exact and_congr (bool_false_iff_not (hasVideoTrackB_iff media))
      (and_congr (bool_false_iff_not (hasGeneralVideoCountB_iff media))
        (bool_false_iff_not (hasVideoExifKeyB_iff exif)))

/-- C3 witness: the theorem applied at MIME "audio/mp3" with empty
documents, discharging the negative-prefix hypothesis. -/
theorem spec_C3_w : isVideoWithAudioOnly "audio/mp3" [] [] = false :=
  (spec_C3 "audio/mp3" [] []).1 (by decide)

theorem trackAnim_not_gated (mimeType : String) (media : Obj)
    (hg : mimeType ≠ "image/gif") (hw : mimeType ≠ "image/webp") :
    trackAnim mimeType media = false := by
  unfold trackAnim
  have h1 : (mimeType == "image/gif") = false := beq_eq_false_iff_ne.mpr hg
  have h2 : (mimeType == "image/webp") = false := beq_eq_false_iff_ne.mpr hw
  simp only [h1, h2, Bool.false_and, Bool.or_self, if_false]
  rw [anyTrack_eq_tracksOf]
  simp

theorem trackAnim_of_track (mimeType : String) (media : Obj) (tm : Obj)
    (hm : tm ∈ tracksOf media)
    (hgate : (mimeType = "image/gif" ∧
        strContains (trackFormat tm) "GIF" = true) ∨
      (mimeType = "image/webp" ∧
        strContains (trackFormat tm) "WebP" = true))
    (hev : (∃ fc, lookupJ tm "FrameCount" = some (Json.str fc) ∧ fc ≠ "1") ∨
      (∃ d, lookupJ tm "Duration" = some (Json.str d) ∧ d ≠ "0")) :
    trackAnim mimeType media = true := by
  unfold trackAnim
  dsimp only
  rw [anyTrack_eq_tracksOf, List.any_eq_true]
  refine ⟨tm, hm, ?_⟩
  rcases hgate with ⟨hm1, hc1⟩ | ⟨hm1, hc1⟩
  · subst hm1
    rcases hev with ⟨fc, hfc, hne⟩ | ⟨d, hd, hne⟩
    · simp [hc1, hfc, hne]
    · simp [hc1, hd, hne]
  · subst hm1
    rcases hev with ⟨fc, hfc, hne⟩ | ⟨d, hd, hne⟩
    · simp [hc1, hfc, hne]
    · simp [hc1, hd, hne]

/-- C4: animation via a numeric tag FrameCount greater than 1 holds for
any MIME type; with an empty tag document the track evidence counts only
under MIME image/gif or image/webp (any other MIME type yields false); a
track whose Format contains "GIF" under MIME image/gif (or "WebP" under
image/webp) makes isAnimation true whenever its string FrameCount is
present and not "1" OR its string Duration is present and not "0"; the
GIF-format track examples of the specification evaluate as claimed,
including Duration-only evidence (Duration "5" with FrameCount absent or
"1"), and a GIF-format track is not evaluated under MIME image/webp. -/
theorem spec_C4 (mimeType : String) (exif media : Obj) (c : ℚ) :
    (lookupJ exif "FrameCount" = some (Json.num c) → 1 < c →
      isAnimation mimeType exif media = true) ∧
    (mimeType ≠ "image/gif" → mimeType ≠ "image/webp" →
      isAnimation mimeType [] media = false) ∧
    (∀ tm, tm ∈ tracksOf media →
      ((mimeType = "image/gif" ∧
          strContains (trackFormat tm) "GIF" = true) ∨
        (mimeType = "image/webp" ∧
          strContains (trackFormat tm) "WebP" = true)) →
      ((∃ fc, lookupJ tm "FrameCount" = some (Json.str fc) ∧ fc ≠ "1") ∨
        (∃ d, lookupJ tm "Duration" = some (Json.str d) ∧ d ≠ "0")) →
      isAnimation mimeType exif media = true) ∧
    isAnimation "image/gif" [] [("media", Json.obj [("track", Json.arr
      [Json.obj [("Format", Json.str "GIF"),
        ("FrameCount", Json.str "12")]])])] = true ∧
    isAnimation "image/gif" [] [("media", Json.obj [("track", Json.arr
      [Json.obj [("Format", Json.str "GIF"),
        ("Duration", Json.str "5")]])])] = true ∧
    isAnimation "image/gif" [] [("media", Json.obj [("track", Json.arr
      [Json.obj [("Format", Json.str "GIF"), ("FrameCount", Json.str "1"),
        ("Duration", Json.str "5")]])])] = true ∧
    isAnimation "image/gif" [] [("media", Json.obj [("track", Json.arr
      [Json.obj [("Format", Json.str "GIF"), ("FrameCount", Json.str "1"),
        ("Duration", Json.str "0")]])])] = false ∧
    isAnimation "image/webp" [] [("media", Json.obj [("track", Json.arr
      [Json.obj [("Format", Json.str "GIF"),
        ("FrameCount", Json.str "12")]])])] = false := by
  refine ⟨?_, ?_, ?_, by decide, by decide, by decide, by decide, by decide⟩
  · intro h1 h2
    unfold isAnimation
    have h3 : exifFrameCountAnim exif = true := by
      unfold exifFrameCountAnim
      rw [h1]
      simpa using h2
    simp [h3]
  · intro hg hw
    unfold isAnimation
    rw [trackAnim_not_gated mimeType media hg hw]
    rfl
  · intro tm hm hgate hev
    unfold isAnimation
    rw [trackAnim_of_track mimeType media tm hm hgate hev]
    simp

/-- C4 witness: a numeric FrameCount of 5 forces isAnimation under the
unrelated MIME type "text/plain". -/
theorem spec_C4_w :
    isAnimation "text/plain" [("FrameCount", Json.num 5)] [] = true :=
  (spec_C4 "text/plain" [("FrameCount", Json.num 5)] [] 5).1 rfl (by norm_num)

theorem durFromTracks_eq (ts : List Json) :
    durFromTracks ts =
      ts.findSome? fun t =>
        match t with
        | Json.obj tm => vidDur tm
        | _ => none := by
  induction ts with
  | nil => rfl
  | cons t ts ih =>
    rw [List.findSome?_cons]
    cases t with
    | obj tm =>
      cases h : lookupJ tm "@type" with
      | none => simp only [durFromTracks, vidDur, h]; exact ih
      | some v =>
        cases v with
        | str ty =>
          by_cases hty : (ty == "Video") = true
          · cases hd : lookupJ tm "Duration" with
            | none =>
              simp only [durFromTracks, vidDur, h, hty, if_true, hd]
              exact ih
            | some d => simp only [durFromTracks, vidDur, h, hty, if_true, hd]
          · simp only [durFromTracks, vidDur, h, Bool.eq_false_iff.mpr hty,
              if_false]
            exact ih
        | null => simp only [durFromTracks, vidDur, h]; exact ih
        | bool b => simp only [durFromTracks, vidDur, h]; exact ih
        | num q => simp only [durFromTracks, vidDur, h]; exact ih
        | arr u => simp only [durFromTracks, vidDur, h]; exact ih
        | obj o => simp only [durFromTracks, vidDur, h]; exact ih
    | null => simp only [durFromTracks]; exact ih
    | bool b => simp only [durFromTracks]; exact ih
    | num q => simp only [durFromTracks]; exact ih
    | str s => simp only [durFromTracks]; exact ih
    | arr u => simp only [durFromTracks]; exact ih

theorem findSome_objFilter (ts : List Json) (g : Obj → Option Json) :
    ((ts.filterMap fun t =>
        match t with
        | Json.obj tm => some tm
        | _ => none).findSome? g) =
      ts.findSome? fun t =>
        match t with
        | Json.obj tm => g tm
        | _ => none := by
  induction ts with
  | nil => rfl
  | cons t ts ih =>
    cases t with
    | obj tm =>
      rw [List.findSome?_cons]
      cases hg : g tm with
      | none => simpa [List.findSome?_cons, hg] using ih
      | some d => simp [List.findSome?_cons, hg]
    | null => simpa using ih
    | bool b => simpa using ih
    | num q => simpa using ih
    | str s => simpa using ih
    | arr u => simpa using ih

/-- C6 counterexample: with an empty tag document and a track list whose
first Video track has no Duration key while a second Video track has
Duration "7", extractDuration returns "7" (the Go loop keeps scanning),
whereas the claimed rule — the Duration field of THE FIRST track whose
discriminator equals "Video", else "Unknown" — yields "Unknown". -/
theorem spec_C6_cex :
    extractDuration [] [("media", Json.obj [("track", Json.arr
      [Json.obj [("@type", Json.str "Video")],
       Json.obj [("@type", Json.str "Video"),
         ("Duration", Json.str "7")]])])] = "7" ∧
    extractDurationSpec [] [("media", Json.obj [("track", Json.arr
      [Json.obj [("@type", Json.str "Video")],
       Json.obj [("@type", Json.str "Video"),
         ("Duration", Json.str "7")]])])] = "Unknown" := by
  exact ⟨by decide, by decide⟩

theorem extractDuration_eq_amended (exif media : Obj) :
    extractDuration exif media = extractDurationAmended exif media := by
  unfold extractDuration extractDurationAmended
  cases lookupJ exif "Duration" with
  | some v => rfl
  | none =>
    cases hm : lookupJ media "media" with
    | none => simp [tracksOf, hm]
    | some v =>
      cases v with
      | obj mm =>
        cases ht : lookupJ mm "track" with
        | none => simp [tracksOf, hm, ht]
        | some w =>
          cases w with
          | arr ts =>
            simp only [tracksOf, hm, ht]
            rw [durFromTracks_eq, findSome_objFilter]
          | null => simp [tracksOf, hm, ht]
          | bool b => simp [tracksOf, hm, ht]
          | num q => simp [tracksOf, hm, ht]
          | str s => simp [tracksOf, hm, ht]
          | obj o => simp [tracksOf, hm, ht]
      | null => simp [tracksOf, hm]
      | bool b => simp [tracksOf, hm]
      | num q => simp [tracksOf, hm]
      | str s => simp [tracksOf, hm]
      | arr u => simp [tracksOf, hm]

/-- C6 as amended: duration resolution prefers the tag document's Duration
key (any value type, rendered as its string form); otherwise it is the
Duration of the first track that both has discriminator "Video" and
carries a Duration key; otherwise the sentinel "Unknown". -/
theorem spec_C6 (exif media : Obj) :
    extractDuration exif media = extractDurationAmended exif media :=
  extractDuration_eq_amended exif media

theorem hexChars_getD_mem (i : ℕ) :
    hexChars.contains (hexChars.getD i '0') = true := by
  by_cases h : i < 16
  · interval_cases i <;> decide
  · rw [List.getD_eq_default]
    · decide
    · simpa [hexChars] using Nat.le_of_not_lt h

theorem isLowerHex_hexEncode (bs : List ℕ) :
    isLowerHex (hexEncode bs) = true := by
  unfold isLowerHex hexEncode
  rw [List.all_eq_true]
  intro c hc
  rw [List.mem_flatten] at hc
  obtain ⟨l, hl, hcl⟩ := hc
  rw [List.mem_map] at hl
  obtain ⟨b, _, rfl⟩ := hl
  unfold hexOfByte at hcl
  simp only [List.mem_cons, List.not_mem_nil, or_false] at hcl
  rcases hcl with h | h
  · exact h ▸ hexChars_getD_mem (b / 16 % 16)
  · exact h ▸ hexChars_getD_mem (b % 16)

/-- C7: computeHashes either fails outright (accumulator construction,
open, or read error: the error branch of each step returns the error and
no digest map) or returns a digest list whose keys are exactly the eight
configured algorithm names, each mapped to a lowercase hex string; a
partial digest set is impossible. -/
theorem spec_C7 (hashFn : String → List ℕ → List ℕ)
    (file : Except String (List ℕ)) :
    (∃ e, computeHashes hashFn file = Except.error e) ∨
    (∃ m, computeHashes hashFn file = Except.ok m ∧
      m.map Prod.fst = hashNames ∧
      (m.all fun p => isLowerHex p.2) = true) := by
  cases file with
  | error e => exact Or.inl ⟨e, rfl⟩
  | ok content =>
    refine Or.inr ⟨_, rfl, rfl, ?_⟩
    · rw [List.all_eq_true]
      intro p hp
      rw [List.mem_map] at hp
      obtain ⟨n, _, rfl⟩ := hp
      exact isLowerHex_hexEncode (hashFn n content)

theorem sizeLoop_stop (n d e : ℕ) (h : n < 1000) : sizeLoop n d e = (d, e) := by
  rw [sizeLoop, dif_neg (by omega)]

theorem sizeLoop_step (n d e : ℕ) (h : 1000 ≤ n) :
    sizeLoop n d e = sizeLoop (n / 1000) (d * 1000) (e + 1) := by
  rw [sizeLoop, dif_pos h]

theorem sizeLoop_char (k : ℕ) : ∀ n d e : ℕ, 1000 ^ k ≤ n → n < 1000 ^ (k + 1) →
    sizeLoop n d e = (d * 1000 ^ k, e + k) := by
  induction k with
  | zero =>
    intro n d e h1 h2
    rw [sizeLoop_stop n d e (by simpa using h2)]
    simp
  | succ k ih =>
    intro n d e h1 h2
    have hge : 1000 ≤ n := le_trans (Nat.le_self_pow (Nat.succ_ne_zero k) 1000 |>.trans h1) le_rfl
    rw [sizeLoop_step n d e hge]
    have h1' : 1000 ^ k ≤ n / 1000 := by
      rw [Nat.le_div_iff_mul_le (by omega)]
      calc 1000 ^ k * 1000 = 1000 ^ (k + 1) := (pow_succ 1000 k).symm
        _ ≤ n := h1
    have h2' : n / 1000 < 1000 ^ (k + 1) := by
      rw [Nat.div_lt_iff_lt_mul (by omega)]
      calc n < 1000 ^ (k + 2) := h2
        _ = 1000 ^ (k + 1) * 1000 := by rw [pow_succ]
    rw [ih (n / 1000) (d * 1000) (e + 1) h1' h2']
    refine Prod.ext ?_ ?_
    · simp [pow_succ]
      ring
    · simp
      omega

theorem sizeLoop_exp_mono (n : ℕ) : ∀ d e : ℕ, e ≤ (sizeLoop n d e).2 := by
  induction n using Nat.strong_induction_on with
  | _ n ih =>
    intro d e
    rw [sizeLoop]
    by_cases h : 1000 ≤ n
    · rw [dif_pos h]
      have := ih (n / 1000) (Nat.div_lt_self (by omega) (by omega)) (d * 1000) (e + 1)
      omega
    · rw [dif_neg h]

theorem sizeLoop_exp_ge (j : ℕ) : ∀ n d e : ℕ, 1000 ^ j ≤ n →
    e + j ≤ (sizeLoop n d e).2 := by
  induction j with
  | zero =>
    intro n d e h
    simpa using sizeLoop_exp_mono n d e
  | succ j ih =>
    intro n d e h
    have hge : 1000 ≤ n :=
      le_trans (Nat.le_self_pow (Nat.succ_ne_zero j) 1000) h
    rw [sizeLoop_step n d e hge]
    have h' : 1000 ^ j ≤ n / 1000 := by
      rw [Nat.le_div_iff_mul_le (by omega)]
      calc 1000 ^ j * 1000 = 1000 ^ (j + 1) := (pow_succ 1000 j).symm
        _ ≤ n := h
    have := ih (n / 1000) (d * 1000) (e + 1) h'
    omega

theorem divRound_nonneg (a b : ℤ) (ha : 0 ≤ a) (hb : 0 < b) :
    0 ≤ divRound a b := by
  have hq : 0 ≤ Int.ediv a b := Int.ediv_nonneg ha (le_of_lt hb)
  simp only [divRound]
  split
  · exact hq
  · split
    · omega
    · split <;> omega

theorem normB64_m_nonneg (m x : ℤ) (h : 0 ≤ m) : 0 ≤ (normB64 m x).m := by
  unfold normB64
  split
  · positivity
  · exact h

theorem floatOfInt_m_nonneg (n : ℤ) : 0 ≤ (floatOfInt n).m := by
  rcases le_or_lt n 0 with h | h
  · rw [floatOfInt, if_pos h]
  · rw [floatOfInt, if_neg (not_le.mpr h)]
    simp only []
    split
    · exact mul_nonneg h.le (by positivity)
    · exact normB64_m_nonneg _ _ (divRound_nonneg _ _ h.le (by positivity))

theorem floatDiv_m_nonneg (a b : B64) : 0 ≤ (floatDiv a b).m := by
  unfold floatDiv
  split
  · simp
  · next h =>
    rw [not_or, not_le, not_le] at h
    exact normB64_m_nonneg _ _
      (divRound_nonneg _ _ (mul_nonneg h.1.le (by positivity)) h.2)

theorem formatF1_shape (v : B64) (hm : 0 ≤ v.m) :
    ∃ a b : ℤ, 0 ≤ a ∧ 0 ≤ b ∧ b < 10 ∧
      formatF1 v = toString a ++ "." ++ toString b := by
  have ht : 0 ≤ (if 0 ≤ v.x then v.m * 10 * 2 ^ v.x.toNat
      else divRound (v.m * 10) (2 ^ (-v.x).toNat)) := by
    split
    · exact mul_nonneg (mul_nonneg hm (by norm_num)) (by positivity)
    · exact divRound_nonneg _ _ (mul_nonneg hm (by norm_num)) (by positivity)
  refine ⟨_, _, Int.ediv_nonneg ht (by omega), Int.emod_nonneg _ (by omega),
    ?_, rfl⟩
  exact Int.emod_lt_of_pos _ (by omega)

theorem hrs_char (n : ℤ) (k : ℕ) (h1 : (1000 : ℤ) ^ (k + 1) ≤ n)
    (h2 : n < (1000 : ℤ) ^ (k + 2)) :
    humanReadableSize n =
      match unitsList.get? k with
      | some u =>
        some (formatF1 (floatDiv (floatOfInt n)
          (floatOfInt (1000 ^ (k + 1)))) ++ " " ++ u)
      | none => none := by
  have hp : (1000 : ℤ) ≤ 1000 ^ (k + 1) := by
    calc (1000 : ℤ) = 1000 ^ 1 := (pow_one 1000).symm
      _ ≤ 1000 ^ (k + 1) := pow_le_pow_right₀ (by omega) (by omega)
  have hn : (1000 : ℤ) ≤ n := le_trans hp h1
  have hmn : (n.toNat : ℤ) = n := Int.toNat_of_nonneg (by omega)
  have hb1 : 1000 ^ k ≤ n.toNat / 1000 := by
    rw [Nat.le_div_iff_mul_le (by omega)]
    have : ((1000 ^ k * 1000 : ℕ) : ℤ) ≤ (n.toNat : ℤ) := by
      rw [hmn]
      push_cast
      calc ((1000 : ℤ) ^ k) * 1000 = 1000 ^ (k + 1) := (pow_succ 1000 k).symm
        _ ≤ n := h1
    exact_mod_cast this
  have hb2 : n.toNat / 1000 < 1000 ^ (k + 1) := by
    rw [Nat.div_lt_iff_lt_mul (by omega)]
    have : (n.toNat : ℤ) < ((1000 ^ (k + 1) * 1000 : ℕ) : ℤ) := by
      rw [hmn]
      push_cast
      calc n < 1000 ^ (k + 2) := h2
        _ = 1000 ^ (k + 1) * 1000 := by rw [pow_succ]
    exact_mod_cast this
  have hloop : sizeLoop (n.toNat / 1000) 1000 0 = (1000 ^ (k + 1), k) := by
    rw [sizeLoop_char k (n.toNat / 1000) 1000 0 hb1 hb2]
    refine Prod.ext ?_ ?_
    · simp [pow_succ]
      ring
    · simp
  rw [humanReadableSize, if_neg (by omega), hloop]
  have hcast : ((1000 ^ (k + 1) : ℕ) : ℤ) = (1000 : ℤ) ^ (k + 1) := by
    push_cast
    ring
  dsimp only
  rw [hcast]

/-- C8: a non-negative byte count below 1000 formats as the plain integer
followed by " B"; a byte count bracketed by consecutive powers of 1000
(1000 ^ (k+1) to 1000 ^ (k+2), the threshold scheme of the decimal units)
formats as the binary64 quotient of the value by 1000 ^ (k+1) rendered
with exactly one decimal digit, a space, and the k-th unit name; and the
three concrete examples of the specification hold. -/
theorem spec_C8 (n : ℤ) (k : ℕ) :
    (0 ≤ n → n < 1000 → humanReadableSize n = some (toString n ++ " B")) ∧
    (∀ u, k ≤ 3 → unitsList.get? k = some u →
      (1000 : ℤ) ^ (k + 1) ≤ n → n < (1000 : ℤ) ^ (k + 2) →
      ∃ a b : ℤ, 0 ≤ a ∧ 0 ≤ b ∧ b < 10 ∧
        formatF1 (floatDiv (floatOfInt n) (floatOfInt (1000 ^ (k + 1)))) =
          toString a ++ "." ++ toString b ∧
        humanReadableSize n =
          some (toString a ++ "." ++ toString b ++ " " ++ u)) ∧
    humanReadableSize 500 = some "500 B" ∧
    humanReadableSize 1500 = some "1.5 KB" ∧
    humanReadableSize 1500000 = some "1.5 MB" := by
  refine ⟨?_, ?_, ?_, ?_, ?_⟩
  · intro h0 h1
    rw [humanReadableSize, if_pos h1]
  · intro u hk hu h1 h2
    have hch := hrs_char n k h1 h2
    rw [hu] at hch
    obtain ⟨a, b, ha, hb0, hb10, hab⟩ :=
      formatF1_shape (floatDiv (floatOfInt n) (floatOfInt (1000 ^ (k + 1))))
        (floatDiv_m_nonneg _ _)
    exact ⟨a, b, ha, hb0, hb10, hab, by rw [hch, hab]⟩
  · rw [humanReadableSize, if_pos (by norm_num)]
    decide
  · rw [hrs_char 1500 0 (by norm_num) (by norm_num)]
    decide
  · rw [hrs_char 1500000 1 (by norm_num) (by norm_num)]
    decide

/-- C8 witness: the sub-1000 branch applied at 500 bytes. -/
theorem spec_C8_w : humanReadableSize 500 = some (toString (500 : ℤ) ++ " B") :=
  (spec_C8 500 0).1 (by norm_num) (by norm_num)

/-- C10: below 1000 ^ 5 the loop's unit index stays at most 3 and the
four-element unit list lookup is in bounds, so a string is produced; from
1000 ^ 5 on the index reaches 4 or more, the lookup is out of bounds, and
the Go code panics (modelled by `none`): the function is not total. -/
theorem spec_C10 (n : ℤ) :
    (0 ≤ n → n < (1000 : ℤ) ^ 5 → ∃ s, humanReadableSize n = some s) ∧
    ((1000 : ℤ) ^ 5 ≤ n →
      4 ≤ (sizeLoop (n.toNat / 1000) 1000 0).2 ∧
      humanReadableSize n = none) := by
  have p1 : (1000 : ℤ) ^ 1 = 1000 := by norm_num
  have p2 : (1000 : ℤ) ^ 2 = 1000000 := by norm_num
  have p3 : (1000 : ℤ) ^ 3 = 1000000000 := by norm_num
  have p4 : (1000 : ℤ) ^ 4 = 1000000000000 := by norm_num
  have p5 : (1000 : ℤ) ^ 5 = 1000000000000000 := by norm_num
  constructor
  · intro h0 h5
    rcases lt_or_le n 1000 with h | h
    · exact ⟨_, by rw [humanReadableSize, if_pos h]⟩
    · have hbr : ∃ k : ℕ, k ≤ 3 ∧ (1000 : ℤ) ^ (k + 1) ≤ n ∧
          n < (1000 : ℤ) ^ (k + 2) := by
        rcases lt_or_le n 1000000 with h2 | h2
        · exact ⟨0, by omega, by rw [p1]; omega, by
            show n < (1000 : ℤ) ^ 2
            omega⟩
        · rcases lt_or_le n 1000000000 with h3 | h3
          · exact ⟨1, by omega, by rw [p2]; omega, by
              show n < (1000 : ℤ) ^ 3
              omega⟩
          · rcases lt_or_le n 1000000000000 with h4 | h4
            · exact ⟨2, by omega, by rw [p3]; omega, by
                show n < (1000 : ℤ) ^ 4
                omega⟩
            · exact ⟨3, by omega, by rw [p4]; omega, by
                show n < (1000 : ℤ) ^ 5
                omega⟩
      obtain ⟨k, hk, hk1, hk2⟩ := hbr
      have hu : ∃ u, unitsList.get? k = some u := by
        interval_cases k
        · exact ⟨"KB", rfl⟩
        · exact ⟨"MB", rfl⟩
        · exact ⟨"GB", rfl⟩
        · exact ⟨"TB", rfl⟩
      obtain ⟨u, hu⟩ := hu
      have hch := hrs_char n k hk1 hk2
      rw [hu] at hch
      exact ⟨_, hch⟩
  · intro h5
    have hn : (1000 : ℤ) ≤ n := by omega
    have hdiv : 1000 ^ 4 ≤ n.toNat / 1000 := by
      rw [Nat.le_div_iff_mul_le (by omega)]
      have : ((1000 ^ 4 * 1000 : ℕ) : ℤ) ≤ (n.toNat : ℤ) := by
        rw [Int.toNat_of_nonneg (by omega)]
        push_cast
        omega
      exact_mod_cast this
    have hexp : 4 ≤ (sizeLoop (n.toNat / 1000) 1000 0).2 := by
      simpa using sizeLoop_exp_ge 4 (n.toNat / 1000) 1000 0 hdiv
    refine ⟨hexp, ?_⟩
    rw [humanReadableSize, if_neg (by omega)]
    have hnone : unitsList.get? (sizeLoop (n.toNat / 1000) 1000 0).2 = none := by
      rw [List.get?_eq_none]
      simpa [unitsList] using hexp
    dsimp only
    rw [hnone]

/-- C10 witness: at exactly 1000 ^ 5 bytes the unit lookup is out of
bounds and no string is produced. -/
theorem spec_C10_w : humanReadableSize 1000000000000000 = none :=
  ((spec_C10 1000000000000000).2 (by norm_num)).2

/-! ## Lemmas for the defensive-degradation claim -/

theorem trackAnim_of_tracksOf_nil (mimeType : String) (media : Obj)
    (h : tracksOf media = []) : trackAnim mimeType media = false := by
  unfold trackAnim
  exact anyTrack_of_tracksOf_nil media _ h

theorem isAnimation_media_default (mimeType : String) (exif media : Obj)
    (h : tracksOf media = []) :
    isAnimation mimeType exif media = isAnimation mimeType exif [] := by
  unfold isAnimation
  rw [trackAnim_of_tracksOf_nil mimeType media h,
    trackAnim_of_tracksOf_nil mimeType [] rfl]

theorem isVideoWithAudioOnly_media_default (mimeType : String)
    (exif media : Obj) (h : tracksOf media = []) :
    isVideoWithAudioOnly mimeType exif media =
      isVideoWithAudioOnly mimeType exif [] := by
  unfold isVideoWithAudioOnly hasVideoTrackB hasGeneralVideoCountB
  rw [anyTrack_of_tracksOf_nil media _ h, anyTrack_of_tracksOf_nil [] _ rfl,
    anyTrack_of_tracksOf_nil media _ h, anyTrack_of_tracksOf_nil [] _ rfl]

theorem extractDuration_media_default (exif media : Obj)
    (h : tracksOf media = []) :
    extractDuration exif media = extractDuration exif [] := by
  rw [extractDuration_eq_amended, extractDuration_eq_amended]
  unfold extractDurationAmended
  rw [h]
  rfl

theorem exifFrameCountAnim_not_num (exif : Obj) (v : Json)
    (h : lookupJ exif "FrameCount" = some v) (hv : ∀ q, v ≠ Json.num q) :
    exifFrameCountAnim exif = false := by
  unfold exifFrameCountAnim
  rw [h]
  cases v with
  | num q => exact absurd rfl (hv q)
  | null => rfl
  | bool b => rfl
  | str s => rfl
  | arr t => rfl
  | obj o => rfl

theorem exifAnimationFlag_not_str (exif : Obj) (v : Json)
    (h : lookupJ exif "Animation" = some v) (hv : ∀ s, v ≠ Json.str s) :
    exifAnimationFlag exif = false := by
  unfold exifAnimationFlag
  rw [h]
  cases v with
  | str s => exact absurd rfl (hv s)
  | null => rfl
  | bool b => rfl
  | num q => rfl
  | arr t => rfl
  | obj o => rfl

theorem exifDurationAnim_not_num (exif : Obj) (v : Json)
    (h : lookupJ exif "Duration" = some v) (hv : ∀ q, v ≠ Json.num q) :
    exifDurationAnim exif = false := by
  unfold exifDurationAnim
  rw [h]
  cases v with
  | num q => exact absurd rfl (hv q)
  | null => rfl
  | bool b => rfl
  | str s => rfl
  | arr t => rfl
  | obj o => rfl

theorem encCheck_not_str (tm : Obj)
    (h : ∀ v, lookupJ tm "Encryption" = some v → ∀ s, v ≠ Json.str s) :
    encCheck tm = false := by
  unfold encCheck
  cases hv : lookupJ tm "Encryption" with
  | none => rfl
  | some v =>
    cases v with
    | str s => exact absurd rfl (h (Json.str s) hv s)
    | null => rfl
    | bool b => rfl
    | num q => rfl
    | arr t => rfl
    | obj o => rfl

theorem typeIs_not_str (ty : String) (tm : Obj)
    (h : ∀ v, lookupJ tm "@type" = some v → ∀ s, v ≠ Json.str s) :
    typeIs ty tm = false := by
  unfold typeIs
  cases hv : lookupJ tm "@type" with
  | none => rfl
  | some v =>
    cases v with
    | str s => exact absurd rfl (h (Json.str s) hv s)
    | null => rfl
    | bool b => rfl
    | num q => rfl
    | arr t => rfl
    | obj o => rfl

theorem videoCountCheck_not_str (tm : Obj)
    (h : ∀ v, lookupJ tm "VideoCount" = some v → ∀ s, v ≠ Json.str s) :
    videoCountCheck tm = false := by
  unfold videoCountCheck
  cases hv : lookupJ tm "VideoCount" with
  | none => rfl
  | some v =>
    cases v with
    | str s => exact absurd rfl (h (Json.str s) hv s)
    | null => rfl
    | bool b => rfl
    | num q => rfl
    | arr t => rfl
    | obj o => rfl

/-- C9: the classifiers are total and defensive on loosely-typed input.
A missing or mistyped media root, or a mistyped (non-list) track field,
makes every track-based classifier behave as if the track document were
empty; a tag-document field of the wrong JSON type (including null)
behaves exactly as an absent field for the rule that reads it; tracks
whose Encryption, discriminator, VideoCount, or Format fields are all
mistyped contribute nothing. Each function is a total Lean function on
arbitrary documents, so no input can make the embedded code fail. -/
theorem spec_C9 (mimeType : String) (exif media : Obj) :
    ((∀ o, lookupJ media "media" ≠ some (Json.obj o)) →
      isAnimation mimeType exif media = isAnimation mimeType exif [] ∧
      isEncrypted media = false ∧
      isVideoWithAudioOnly mimeType exif media =
        isVideoWithAudioOnly mimeType exif [] ∧
      extractDuration exif media = extractDuration exif []) ∧
    (∀ root, lookupJ media "media" = some (Json.obj root) →
      (∀ xs, lookupJ root "track" ≠ some (Json.arr xs)) →
      isAnimation mimeType exif media = isAnimation mimeType exif [] ∧
      isEncrypted media = false ∧
      isVideoWithAudioOnly mimeType exif media =
        isVideoWithAudioOnly mimeType exif [] ∧
      extractDuration exif media = extractDuration exif []) ∧
    (∀ v, lookupJ exif "FrameCount" = some v → (∀ q, v ≠ Json.num q) →
      isAnimation mimeType exif media =
        isAnimation mimeType (eraseK "FrameCount" exif) media) ∧
    (∀ v, lookupJ exif "Animation" = some v → (∀ s, v ≠ Json.str s) →
      isAnimation mimeType exif media =
        isAnimation mimeType (eraseK "Animation" exif) media) ∧
    (∀ v, lookupJ exif "Duration" = some v → (∀ q, v ≠ Json.num q) →
      isAnimation mimeType exif media =
        isAnimation mimeType (eraseK "Duration" exif) media) ∧
    ((∀ tm ∈ tracksOf media, ∀ v, lookupJ tm "Encryption" = some v →
        ∀ s, v ≠ Json.str s) → isEncrypted media = false) ∧
    ((∀ tm ∈ tracksOf media, ∀ v, lookupJ tm "@type" = some v →
        ∀ s, v ≠ Json.str s) →
      hasVideoTrackB media = false ∧ hasGeneralVideoCountB media = false) ∧
    ((∀ tm ∈ tracksOf media, ∀ v, lookupJ tm "VideoCount" = some v →
        ∀ s, v ≠ Json.str s) → hasGeneralVideoCountB media = false) ∧
    ((∀ tm ∈ tracksOf media, ∀ v, lookupJ tm "Format" = some v →
        ∀ s, v ≠ Json.str s) → trackAnim mimeType media = false) := by
  refine ⟨?_, ?_, ?_, ?_, ?_, ?_, ?_, ?_, ?_⟩
  · intro h
    have ht := tracksOf_no_root media h
    exact ⟨isAnimation_media_default mimeType exif media ht,
      by unfold isEncrypted; exact anyTrack_of_tracksOf_nil media _ ht,
      isVideoWithAudioOnly_media_default mimeType exif media ht,
      extractDuration_media_default exif media ht⟩
  · intro root hr htr
    have ht := tracksOf_bad_track media root hr htr
    exact ⟨isAnimation_media_default mimeType exif media ht,
      by unfold isEncrypted; exact anyTrack_of_tracksOf_nil media _ ht,
      isVideoWithAudioOnly_media_default mimeType exif media ht,
      extractDuration_media_default exif media ht⟩
  · intro v hv hnv
    unfold isAnimation
    rw [exifFrameCountAnim_not_num exif v hv hnv]
    have e1 : exifFrameCountAnim (eraseK "FrameCount" exif) = false := by
      unfold exifFrameCountAnim
      rw [lookupJ_eraseK_self]
    have e2 : exifAnimationFlag (eraseK "FrameCount" exif) =
        exifAnimationFlag exif := by
      unfold exifAnimationFlag
      rw [lookupJ_eraseK_ne exif "FrameCount" "Animation" (by decide)]
    have e3 : exifDurationAnim (eraseK "FrameCount" exif) =
        exifDurationAnim exif := by
      unfold exifDurationAnim
      rw [lookupJ_eraseK_ne exif "FrameCount" "Duration" (by decide)]
    rw [e1, e2, e3]
  · intro v hv hnv
    unfold isAnimation
    rw [exifAnimationFlag_not_str exif v hv hnv]
    have e1 : exifAnimationFlag (eraseK "Animation" exif) = false := by
      unfold exifAnimationFlag
      rw [lookupJ_eraseK_self]
    have e2 : exifFrameCountAnim (eraseK "Animation" exif) =
        exifFrameCountAnim exif := by
      unfold exifFrameCountAnim
      rw [lookupJ_eraseK_ne exif "Animation" "FrameCount" (by decide)]
    have e3 : exifDurationAnim (eraseK "Animation" exif) =
        exifDurationAnim exif := by
      unfold exifDurationAnim
      rw [lookupJ_eraseK_ne exif "Animation" "Duration" (by decide)]
    rw [e1, e2, e3]
  · intro v hv hnv
    unfold isAnimation
    rw [exifDurationAnim_not_num exif v hv hnv]
    have e1 : exifDurationAnim (eraseK "Duration" exif) = false := by
      unfold exifDurationAnim
      rw [lookupJ_eraseK_self]
    have e2 : exifFrameCountAnim (eraseK "Duration" exif) =
        exifFrameCountAnim exif := by
      unfold exifFrameCountAnim
      rw [lookupJ_eraseK_ne exif "Duration" "FrameCount" (by decide)]
    have e3 : exifAnimationFlag (eraseK "Duration" exif) =
        exifAnimationFlag exif := by
      unfold exifAnimationFlag
      rw [lookupJ_eraseK_ne exif "Duration" "Animation" (by decide)]
    rw [e1, e2, e3]
  · intro hall
    unfold isEncrypted
    rw [anyTrack_eq_tracksOf, List.any_eq_false]
    intro tm hm
    simp [encCheck_not_str tm (hall tm hm)]
  · intro hall
    constructor
    · unfold hasVideoTrackB
      rw [anyTrack_eq_tracksOf, List.any_eq_false]
      intro tm hm
      simp [typeIs_not_str "Video" tm (hall tm hm)]
    · unfold hasGeneralVideoCountB
      rw [anyTrack_eq_tracksOf, List.any_eq_false]
      intro tm hm
      simp [typeIs_not_str "General" tm (hall tm hm)]
  · intro hall
    unfold hasGeneralVideoCountB
    rw [anyTrack_eq_tracksOf, List.any_eq_false]
    intro tm hm
    simp [videoCountCheck_not_str tm (hall tm hm)]
  · intro hall
    unfold trackAnim
    rw [anyTrack_eq_tracksOf, List.any_eq_false]
    intro tm hm
    have hfmt : trackFormat tm = "" := by
      unfold trackFormat
      cases hv : lookupJ tm "Format" with
      | none => rfl
      | some v =>
        cases v with
        | str s => exact absurd rfl (hall tm hm (Json.str s) hv s)
        | null => rfl
        | bool b => rfl
        | num q => rfl
        | arr t => rfl
        | obj o => rfl
    simp only [hfmt]
    have hg : strContains "" "GIF" = false := rfl
    have hw : strContains "" "WebP" = false := rfl
    simp [hg, hw]

/-- C9 witness: a tag document whose FrameCount is the string "x" (the
wrong JSON type) classifies exactly as the document with FrameCount
removed, under an arbitrary MIME type and a mistyped media root. -/
theorem spec_C9_w :
    isAnimation "video/mp4" [("FrameCount", Json.str "x")]
        [("media", Json.num 3)] =
      isAnimation "video/mp4" (eraseK "FrameCount"
        [("FrameCount", Json.str "x")]) [("media", Json.num 3)] :=
  (spec_C9 "video/mp4" [("FrameCount", Json.str "x")]
      [("media", Json.num 3)]).2.2.1 (Json.str "x") rfl
    (fun _ h => Json.noConfusion h)

/-- C2 witness: a declared MIMEType of "image/png" wins over a sniffer
answer of "text/plain". -/
theorem spec_C2_w :
    getMimeType [("MIMEType", Json.str "image/png")] (some "text/plain") =
      "image/png" :=
  (spec_C2 [("MIMEType", Json.str "image/png")] (some "text/plain")).1
    "image/png" rfl (by decide) (by decide)
